import Mathlib

/-!
Verification of the `git-logger` tool (src/index.ts): a shallow embedding of
`GitLogger.getCommits`, `GitLogger.printCommitHistory` and
`GitLogger.applyToRepo` over an oracle describing the outcomes of the
external git invocations, together with theorems settling the frozen claims.

The external version-control tool is modelled as a `World`: a record of
(pure, fallible) answers to each kind of git call the program makes.  Each
embedded operation is a total function of the `World` returning the list of
observable events (console output, git commands issued) and, where the
TypeScript promise can reject, the escaped error.  Totality of the Lean
functions reflects the `try/catch` structure of the source: a function whose
every failure is caught is embedded as a function that always returns.
-/

namespace GitLogger

/-- One entry of the result of `git.log()` (`log.all` in the source):
the fields the program reads from each log entry. -/
structure LogEntry where
  hash : String
  author_name : String
  date : String
  message : String
deriving Repr, DecidableEq

/-- The `GitCommit` interface of src/index.ts lines 5-11. -/
structure GitCommit where
  hash : String
  author : String
  date : String
  message : String
  diff : String
deriving Repr, DecidableEq

/-- The `ApplyOptions` interface of src/index.ts lines 13-18: all four
fields optional. -/
structure ApplyOptions where
  newAuthor : Option String := none
  newEmail : Option String := none
  newCommitter : Option String := none
  newCommitterEmail : Option String := none
deriving Repr, DecidableEq

/-- JavaScript truthiness of an optional string (`undefined` and `""` are
falsy), used by the source in every `options.x && options.y` guard. -/
def truthy : Option String → Bool
  | none => false
  | some s => !(s == "")

/-- An observable event of a run: console output (`console.log` /
`console.error`) and git invocations.  `tgtCmd` records the argument list
and the environment-variable map passed to `targetGit.raw` (the source
passes no environment: see `applyToRepo`). -/
inductive Ev where
  | info (s : String)
  | error (s : String)
  | srcShow (hash : String)
  | srcCmd (args : List String)
  | tgtCheck
  | tgtCmd (args : List String) (env : List (String × String))
deriving Repr, DecidableEq

/-- Oracle for the external git tool: the outcome of each call the program
can make.  `Except.error e` models a rejected promise carrying message `e`. -/
structure World where
  srcIsRepo : Except String Bool
  srcLog : Except String (List LogEntry)
  srcShow : String → Except String String
  srcRaw : List String → Except String String
  tgtIsRepo : Except String Bool
  tgtRaw : List String → Except String String

/-- The per-entry loop of `getCommits` (src/index.ts lines 45-56): for each
log entry, `git.show([hash])` is awaited and a `GitCommit` is built; the
first failing lookup aborts the loop with that error.  Returns the result
together with the `show` calls actually issued. -/
def diffLoop (w : World) : List LogEntry → Except String (List GitCommit) × List Ev
  | [] => (Except.ok [], [])
  | e :: rest =>
    match w.srcShow e.hash with
    | Except.error msg => (Except.error msg, [Ev.srcShow e.hash])
    | Except.ok d =>
      let (r, tr) := diffLoop w rest
      (r.map (fun cs =>
        { hash := e.hash, author := e.author_name, date := e.date,
          message := e.message, diff := d } :: cs),
       Ev.srcShow e.hash :: tr)

/-- `GitLogger.getCommits` (src/index.ts lines 32-63): validity check, full
log, one `show` per entry; every failure is caught, logged via
`console.error`, and yields the empty list. -/
def getCommits (repoPath : String) (w : World) : List GitCommit × List Ev :=
  match w.srcIsRepo with
  | Except.error e => ([], [Ev.error ("Error reading git history: " ++ e)])
  | Except.ok false => ([], [Ev.info ("Not a git repository: " ++ repoPath)])
  | Except.ok true =>
    match w.srcLog with
    | Except.error e => ([], [Ev.error ("Error reading git history: " ++ e)])
    | Except.ok entries =>
      match diffLoop w entries with
      | (Except.error e, tr) => ([], tr ++ [Ev.error ("Error reading git history: " ++ e)])
      | (Except.ok cs, tr) => (cs, tr)

/-- The fixed per-commit template of `printCommitHistory`
(src/index.ts lines 75-84). -/
def commitBlock (c : GitCommit) : List Ev :=
  [Ev.info "----------------------------------------",
   Ev.info ("Commit: " ++ c.hash),
   Ev.info ("Author: " ++ c.author),
   Ev.info ("Date: " ++ c.date),
   Ev.info ("Message: " ++ c.message),
   Ev.info "\nDiff:\n",
   Ev.info c.diff,
   Ev.info "----------------------------------------\n"]

/-- `GitLogger.printCommitHistory` (src/index.ts lines 65-85). -/
def printCommitHistory (repoPath currentTime : String) (w : World) : List Ev :=
  let (commits, tr) := getCommits repoPath w
  tr ++ [Ev.info ("Git History for " ++ repoPath ++ " as of " ++ currentTime ++ ":\n")] ++
  (if commits.length = 0 then
    [Ev.info "No commits found or not a git repository."]
  else
    (commits.map commitBlock).flatten)

/-- The patch path constructed at src/index.ts line 115. -/
def patchPath (repoPath hash : String) : String :=
  repoPath ++ "/temp_" ++ hash ++ ".patch"

/-- Arguments of the `format-patch` invocation at src/index.ts lines 116-118. -/
def formatPatchArgs (repoPath hash : String) : List String :=
  ["format-patch", "--stdout", "-1", "--full-index", "--binary", "--date-order",
   hash, "-o", repoPath]

/-- The `amArgs` list built at src/index.ts lines 121-133: four fixed flags,
the author override when both `newAuthor` and `newEmail` are truthy, and
finally the patch path. -/
def amArgs (o : ApplyOptions) (pp : String) : List String :=
  ["--committer-date-is-author-date", "--ignore-space-change",
   "--ignore-whitespace", "--3way"]
  ++ (match o.newAuthor, o.newEmail with
      | some a, some e => if a ≠ "" ∧ e ≠ "" then ["--author", a ++ " <" ++ e ++ ">"] else []
      | _, _ => [])
  ++ [pp]

/-- The environment-variable map built at src/index.ts lines 104-108; the
source computes it but never passes it to any invocation (line 137 has the
`{ env }` argument commented out). -/
def computeEnv (o : ApplyOptions) : List (String × String) :=
  match o.newCommitter, o.newCommitterEmail with
  | some n, some e =>
    if n ≠ "" ∧ e ≠ "" then
      [("GIT_COMMITTER_NAME", n), ("GIT_COMMITTER_EMAIL", e)]
    else []
  | _, _ => []

/-- The `authorInfo` string of src/index.ts lines 142-144: decided on
`options.newAuthor` alone. -/
def authorInfo (o : ApplyOptions) (c : GitCommit) : String :=
  if truthy o.newAuthor then "new author: " ++ o.newAuthor.getD ""
  else "original author: " ++ c.author

/-- The `committerInfo` string of src/index.ts lines 145-147: decided on
`options.newCommitter` alone. -/
def committerInfo (o : ApplyOptions) : String :=
  if truthy o.newCommitter then "new committer: " ++ o.newCommitter.getD ""
  else "original committer"

/-- The success line of src/index.ts line 148. -/
def successLine (o : ApplyOptions) (c : GitCommit) : String :=
  "✓ Successfully applied with " ++ authorInfo o c ++ ", " ++ committerInfo o ++
  " and original date: " ++ c.date ++ "\n"

/-- The `catch` block of src/index.ts lines 149-153: log the failure with
commit hash and date, then issue `am --abort` against the target.  The abort
call itself is awaited and not guarded: if it rejects, the whole
`applyToRepo` promise rejects (second component `some e`). -/
def catchBlock (w : World) (c : GitCommit) (emsg : String) : List Ev × Option String :=
  let tr := [Ev.error ("Failed to apply commit " ++ c.hash ++ " from " ++ c.date ++ ": " ++ emsg),
             Ev.tgtCmd ["am", "--abort"] []]
  match w.tgtRaw ["am", "--abort"] with
  | Except.ok _ => (tr, none)
  | Except.error e2 => (tr, some e2)

/-- The `try` body of one iteration of the loop at src/index.ts lines
112-154: format-patch, am, clean, success log, with the catch block on the
first failure. -/
def applyOne (repoPath : String) (o : ApplyOptions) (w : World) (c : GitCommit) :
    List Ev × Option String :=
  match w.srcRaw (formatPatchArgs repoPath c.hash) with
  | Except.error e =>
    (Ev.srcCmd (formatPatchArgs repoPath c.hash) :: (catchBlock w c e).1,
     (catchBlock w c e).2)
  | Except.ok _ =>
    match w.tgtRaw (amArgs o (patchPath repoPath c.hash)) with
    | Except.error e =>
      ([Ev.srcCmd (formatPatchArgs repoPath c.hash),
        Ev.info ("Applying commit: " ++ c.message ++ " (" ++ c.date ++ ")"),
        Ev.tgtCmd (amArgs o (patchPath repoPath c.hash)) []] ++ (catchBlock w c e).1,
       (catchBlock w c e).2)
    | Except.ok _ =>
      match w.tgtRaw ["clean", "-f", patchPath repoPath c.hash] with
      | Except.error e =>
        ([Ev.srcCmd (formatPatchArgs repoPath c.hash),
          Ev.info ("Applying commit: " ++ c.message ++ " (" ++ c.date ++ ")"),
          Ev.tgtCmd (amArgs o (patchPath repoPath c.hash)) [],
          Ev.tgtCmd ["clean", "-f", patchPath repoPath c.hash] []] ++ (catchBlock w c e).1,
         (catchBlock w c e).2)
      | Except.ok _ =>
        ([Ev.srcCmd (formatPatchArgs repoPath c.hash),
          Ev.info ("Applying commit: " ++ c.message ++ " (" ++ c.date ++ ")"),
          Ev.tgtCmd (amArgs o (patchPath repoPath c.hash)) [],
          Ev.tgtCmd ["clean", "-f", patchPath repoPath c.hash] [],
          Ev.info (successLine o c)], none)

/-- The commit loop of `applyToRepo`: sequential, stopping only when an
uncaught rejection (a failed `am --abort`) escapes an iteration. -/
def applyLoop (repoPath : String) (o : ApplyOptions) (w : World) :
    List GitCommit → List Ev × Option String
  | [] => ([], none)
  | c :: rest =>
    match (applyOne repoPath o w c).2 with
    | some e => ((applyOne repoPath o w c).1, some e)
    | none =>
      ((applyOne repoPath o w c).1 ++ (applyLoop repoPath o w rest).1,
       (applyLoop repoPath o w rest).2)

/-- `GitLogger.applyToRepo` (src/index.ts lines 87-155).  The second
component is `some e` exactly when the underlying promise rejects with `e`
(caught at top level by `process.exit(1)`). -/
def applyToRepo (repoPath targetRepoPath : String) (o : ApplyOptions) (w : World) :
    List Ev × Option String :=
  if (getCommits repoPath w).1.length = 0 then
    ((getCommits repoPath w).2 ++ [Ev.info "No commits to apply."], none)
  else
    match w.tgtIsRepo with
    | Except.error e => ((getCommits repoPath w).2 ++ [Ev.tgtCheck], some e)
    | Except.ok false =>
      ((getCommits repoPath w).2 ++
       [Ev.tgtCheck,
        Ev.info ("Target is not a git repository: " ++ targetRepoPath)], none)
    | Except.ok true =>
      let _env := computeEnv o
      ((getCommits repoPath w).2 ++
       [Ev.tgtCheck,
        Ev.info ("Applying commits to " ++ targetRepoPath ++ "...\n")] ++
       (applyLoop repoPath o w (getCommits repoPath w).1).1,
       (applyLoop repoPath o w (getCommits repoPath w).1).2)

/-- The first failing step of one iteration of the `applyToRepo` loop, with
its error message: `format-patch`, then the `am` application, then the
`clean` removal (step 2, pure list construction, cannot fail).  `none` means
all steps succeed for this commit. -/
def failMsg (repoPath : String) (o : ApplyOptions) (w : World) (c : GitCommit) :
    Option String :=
  match w.srcRaw (formatPatchArgs repoPath c.hash) with
  | Except.error e => some e
  | Except.ok _ =>
    match w.tgtRaw (amArgs o (patchPath repoPath c.hash)) with
    | Except.error e => some e
    | Except.ok _ =>
      match w.tgtRaw ["clean", "-f", patchPath repoPath c.hash] with
      | Except.error e => some e
      | Except.ok _ => none

/-! ### Helper lemmas -/

theorem diffLoop_ok (w : World) (entries : List LogEntry)
    (h : ∀ e ∈ entries, ∃ d, w.srcShow e.hash = Except.ok d) :
    diffLoop w entries =
      (Except.ok (entries.map fun e =>
        { hash := e.hash, author := e.author_name, date := e.date,
          message := e.message, diff := (w.srcShow e.hash).toOption.getD "" }),
       entries.map fun e => Ev.srcShow e.hash) := by
  induction entries with
  | nil => rfl
  | cons e rest ih =>
    obtain ⟨d, hd⟩ := h e (by simp)
    have hrest := ih (fun x hx => h x (by simp [hx]))
    simp [diffLoop, hd, hrest, Except.toOption, Except.map]

theorem diffLoop_error (w : World) (entries : List LogEntry)
    (h : ¬ ∀ e ∈ entries, ∃ d, w.srcShow e.hash = Except.ok d) :
    ∃ msg tr, diffLoop w entries = (Except.error msg, tr) := by
  induction entries with
  | nil => simp at h
  | cons e rest ih =>
    cases he : w.srcShow e.hash with
    | error m => exact ⟨m, [Ev.srcShow e.hash], by simp [diffLoop, he]⟩
    | ok d =>
      have hrest : ¬ ∀ x ∈ rest, ∃ dd, w.srcShow x.hash = Except.ok dd := by
        intro hall
        apply h
        intro x hx
        rcases List.mem_cons.mp hx with hx | hx
        · exact ⟨d, hx ▸ he⟩
        · exact hall x hx
      obtain ⟨m, tr, hm⟩ := ih hrest
      exact ⟨m, Ev.srcShow e.hash :: tr, by simp [diffLoop, he, hm, Except.map]⟩

theorem diffLoop_trace_shows (w : World) (entries : List LogEntry) :
    ∀ ev ∈ (diffLoop w entries).2, ∃ h, ev = Ev.srcShow h := by
  induction entries with
  | nil => simp [diffLoop]
  | cons e rest ih =>
    intro ev hev
    cases he : w.srcShow e.hash with
    | error m =>
      rw [diffLoop, he] at hev
      simp at hev
      exact ⟨e.hash, hev⟩
    | ok d =>
      rw [diffLoop, he] at hev
      simp at hev
      rcases hev with hev | hev
      · exact ⟨e.hash, hev⟩
      · exact ih ev hev

theorem getCommits_trace_kinds (rp : String) (w : World) :
    ∀ ev ∈ (getCommits rp w).2,
      (∃ h, ev = Ev.srcShow h) ∨ (∃ s, ev = Ev.error s) ∨
      ev = Ev.info ("Not a git repository: " ++ rp) := by
  intro ev hev
  cases hrepo : w.srcIsRepo with
  | error e =>
    simp only [getCommits, hrepo] at hev
    simp at hev
    exact Or.inr (Or.inl ⟨_, hev⟩)
  | ok b =>
    cases b with
    | false =>
      simp only [getCommits, hrepo] at hev
      simp at hev
      exact Or.inr (Or.inr hev)
    | true =>
      cases hlog : w.srcLog with
      | error e =>
        simp only [getCommits, hrepo, hlog] at hev
        simp at hev
        exact Or.inr (Or.inl ⟨_, hev⟩)
      | ok entries =>
        rcases hdl : diffLoop w entries with ⟨r, tr⟩
        cases r with
        | error m =>
          simp only [getCommits, hrepo, hlog, hdl] at hev
          simp at hev
          rcases hev with hev | hev
          · exact Or.inl (diffLoop_trace_shows w entries ev (by rw [hdl]; exact hev))
          · exact Or.inr (Or.inl ⟨_, hev⟩)
        | ok cs =>
          simp only [getCommits, hrepo, hlog, hdl] at hev
          exact Or.inl (diffLoop_trace_shows w entries ev (by rw [hdl]; exact hev))

/-! ### Concrete worlds used by witnesses and counterexamples -/

/-- A source repository with two commits whose log and diff lookups all
succeed. -/
def wTwoCommits : World where
  srcIsRepo := Except.ok true
  srcLog := Except.ok [⟨"h1", "a1", "d1", "m1"⟩, ⟨"h2", "a2", "d2", "m2"⟩]
  srcShow := fun h => Except.ok ("diff-" ++ h)
  srcRaw := fun _ => Except.ok ""
  tgtIsRepo := Except.ok true
  tgtRaw := fun _ => Except.ok ""

/-- A path that is not a git repository. -/
def wNotRepo : World where
  srcIsRepo := Except.ok false
  srcLog := Except.error "no log"
  srcShow := fun _ => Except.error "no show"
  srcRaw := fun _ => Except.error "no raw"
  tgtIsRepo := Except.ok false
  tgtRaw := fun _ => Except.error "no raw"

/-! ### Claim theorems -/

/-- C1: for a repository whose log holds `entries` (N commits) and where the
validity check, log retrieval and every per-commit `show` lookup succeed,
`getCommits` returns exactly one `GitCommit` per log entry, in the log's
order, each record taking hash, author, date and message from the
corresponding entry and its diff from the separate `show` lookup on that
entry's hash — the trace records one `show` call per entry, in order. -/
theorem getCommits_log_faithful (rp : String) (w : World) (entries : List LogEntry)
    (h1 : w.srcIsRepo = Except.ok true) (h2 : w.srcLog = Except.ok entries)
    (h3 : ∀ e ∈ entries, ∃ d, w.srcShow e.hash = Except.ok d) :
    (getCommits rp w).1 = entries.map (fun e =>
      { hash := e.hash, author := e.author_name, date := e.date,
        message := e.message, diff := (w.srcShow e.hash).toOption.getD "" }) ∧
    (getCommits rp w).2 = entries.map (fun e => Ev.srcShow e.hash) := by
  have hdl := diffLoop_ok w entries h3
  constructor <;> simp only [getCommits, h1, h2, hdl]

/-- Witness for C1 at a two-commit repository. -/
theorem getCommits_log_faithful_witness :
    (getCommits "r" wTwoCommits).1 =
      ([⟨"h1", "a1", "d1", "m1"⟩, ⟨"h2", "a2", "d2", "m2"⟩] : List LogEntry).map (fun e =>
        { hash := e.hash, author := e.author_name, date := e.date,
          message := e.message, diff := (wTwoCommits.srcShow e.hash).toOption.getD "" }) ∧
    (getCommits "r" wTwoCommits).2 =
      ([⟨"h1", "a1", "d1", "m1"⟩, ⟨"h2", "a2", "d2", "m2"⟩] : List LogEntry).map
        (fun e => Ev.srcShow e.hash) :=
  getCommits_log_faithful "r" wTwoCommits _ rfl rfl
    (fun e _ => ⟨"diff-" ++ e.hash, rfl⟩)

/-- C5: `getCommits` is total (the embedding of "never propagates an
exception": every failure is caught), and whenever the validity check does
not succeed with `true`, or the log retrieval fails, or some per-commit
diff lookup fails, the result is the empty list — no partial results — and
a diagnostic line is logged. -/
theorem getCommits_degrades_to_empty (rp : String) (w : World)
    (h : ¬ (w.srcIsRepo = Except.ok true ∧
            ∃ entries, w.srcLog = Except.ok entries ∧
            ∀ e ∈ entries, ∃ d, w.srcShow e.hash = Except.ok d)) :
    (getCommits rp w).1 = [] ∧
    ∃ s, Ev.error s ∈ (getCommits rp w).2 ∨ Ev.info s ∈ (getCommits rp w).2 := by
  cases hrepo : w.srcIsRepo with
  | error e =>
    constructor <;> simp [getCommits, hrepo]
  | ok b =>
    cases b with
    | false =>
      constructor <;> simp [getCommits, hrepo]
    | true =>
      cases hlog : w.srcLog with
      | error e =>
        constructor <;> simp [getCommits, hrepo, hlog]
      | ok entries =>
        have hshow : ¬ ∀ e ∈ entries, ∃ d, w.srcShow e.hash = Except.ok d := by
          intro hall
          exact h ⟨hrepo, entries, hlog, hall⟩
        obtain ⟨m, tr, hdl⟩ := diffLoop_error w entries hshow
        constructor
        · simp only [getCommits, hrepo, hlog, hdl]
        · exact ⟨"Error reading git history: " ++ m, by
            simp only [getCommits, hrepo, hlog, hdl]
            simp⟩

/-- Witness for C5 at a non-repository path. -/
theorem getCommits_degrades_to_empty_witness :
    (getCommits "p" wNotRepo).1 = [] ∧
    ∃ s, Ev.error s ∈ (getCommits "p" wNotRepo).2 ∨
         Ev.info s ∈ (getCommits "p" wNotRepo).2 :=
  getCommits_degrades_to_empty "p" wNotRepo
    (fun hc => by simpa [wNotRepo] using hc.1)

theorem sep_ne_not_repo (rp : String) :
    ("----------------------------------------" : String) ≠
      "Not a git repository: " ++ rp := by
  intro h
  have hd := congrArg String.data h
  simp [String.data_append] at hd

theorem sep_ne_header (rp ct : String) :
    ("----------------------------------------" : String) ≠
      "Git History for " ++ rp ++ " as of " ++ ct ++ ":\n" := by
  intro h
  have hd := congrArg String.data h
  simp [String.data_append] at hd

theorem printCommitHistory_eq (rp ct : String) (w : World) :
    printCommitHistory rp ct w =
      (getCommits rp w).2 ++
      [Ev.info ("Git History for " ++ rp ++ " as of " ++ ct ++ ":\n")] ++
      (if (getCommits rp w).1.length = 0 then
        [Ev.info "No commits found or not a git repository."]
      else ((getCommits rp w).1.map (fun c =>
        [Ev.info "----------------------------------------",
         Ev.info ("Commit: " ++ c.hash),
         Ev.info ("Author: " ++ c.author),
         Ev.info ("Date: " ++ c.date),
         Ev.info ("Message: " ++ c.message),
         Ev.info "\nDiff:\n",
         Ev.info c.diff,
         Ev.info "----------------------------------------\n"])).flatten) := rfl

/-- C9: `printCommitHistory` emits the history header followed, for each
commit, by the fixed template — separator, hash, author, date, message,
blank `Diff` line, diff, trailing separator — and, when the commit list is
empty, by the distinct no-commits message; in the empty case no separator
line (the shape every commit block starts with) appears anywhere in the
output. -/
theorem printCommitHistory_template (rp ct : String) (w : World) :
    printCommitHistory rp ct w =
      (getCommits rp w).2 ++
      [Ev.info ("Git History for " ++ rp ++ " as of " ++ ct ++ ":\n")] ++
      (if (getCommits rp w).1.length = 0 then
        [Ev.info "No commits found or not a git repository."]
      else ((getCommits rp w).1.map (fun c =>
        [Ev.info "----------------------------------------",
         Ev.info ("Commit: " ++ c.hash),
         Ev.info ("Author: " ++ c.author),
         Ev.info ("Date: " ++ c.date),
         Ev.info ("Message: " ++ c.message),
         Ev.info "\nDiff:\n",
         Ev.info c.diff,
         Ev.info "----------------------------------------\n"])).flatten) ∧
    ((getCommits rp w).1 = [] →
      Ev.info "----------------------------------------" ∉ printCommitHistory rp ct w) := by
  refine ⟨printCommitHistory_eq rp ct w, ?_⟩
  intro hempty hmem
  rw [printCommitHistory_eq, hempty] at hmem
  rw [if_pos (show ([] : List GitCommit).length = 0 from rfl)] at hmem
  simp only [List.mem_append, List.mem_singleton] at hmem
  rcases hmem with (hmem | hmem) | hmem
  · rcases getCommits_trace_kinds rp w _ hmem with ⟨hh, hev⟩ | ⟨s, hev⟩ | hev
    · exact Ev.noConfusion hev
    · exact Ev.noConfusion hev
    · injection hev with h
      exact sep_ne_not_repo rp h
  · injection hmem with h
    exact sep_ne_header rp ct h
  · injection hmem with h
    exact absurd h (by decide)

/-- Witness for C9: on an empty history, the output contains no separator
line. -/
theorem printCommitHistory_template_witness :
    Ev.info "----------------------------------------" ∉
      printCommitHistory "r" "t" wNotRepo :=
  (printCommitHistory_template "r" "t" wNotRepo).2 rfl

theorem catchBlock_trace (w : World) (c : GitCommit) (emsg : String) :
    (catchBlock w c emsg).1 =
      [Ev.error ("Failed to apply commit " ++ c.hash ++ " from " ++ c.date ++ ": " ++ emsg),
       Ev.tgtCmd ["am", "--abort"] []] := by
  unfold catchBlock
  cases w.tgtRaw ["am", "--abort"] <;> rfl

theorem catchBlock_recovers (w : World) (c : GitCommit) (emsg : String)
    (ha : ∃ s, w.tgtRaw ["am", "--abort"] = Except.ok s) :
    (catchBlock w c emsg).2 = none := by
  obtain ⟨s, hs⟩ := ha
  unfold catchBlock
  rw [hs]

theorem applyOne_eq_fpFail (rp : String) (o : ApplyOptions) (w : World) (c : GitCommit)
    (e : String) (h : w.srcRaw (formatPatchArgs rp c.hash) = Except.error e) :
    applyOne rp o w c =
      (Ev.srcCmd (formatPatchArgs rp c.hash) :: (catchBlock w c e).1,
       (catchBlock w c e).2) := by
  unfold applyOne
  rw [h]

theorem applyOne_eq_amFail (rp : String) (o : ApplyOptions) (w : World) (c : GitCommit)
    (s e : String) (h1 : w.srcRaw (formatPatchArgs rp c.hash) = Except.ok s)
    (h2 : w.tgtRaw (amArgs o (patchPath rp c.hash)) = Except.error e) :
    applyOne rp o w c =
      ([Ev.srcCmd (formatPatchArgs rp c.hash),
        Ev.info ("Applying commit: " ++ c.message ++ " (" ++ c.date ++ ")"),
        Ev.tgtCmd (amArgs o (patchPath rp c.hash)) []] ++ (catchBlock w c e).1,
       (catchBlock w c e).2) := by
  unfold applyOne
  rw [h1, h2]

theorem applyOne_eq_cleanFail (rp : String) (o : ApplyOptions) (w : World) (c : GitCommit)
    (s1 s2 e : String) (h1 : w.srcRaw (formatPatchArgs rp c.hash) = Except.ok s1)
    (h2 : w.tgtRaw (amArgs o (patchPath rp c.hash)) = Except.ok s2)
    (h3 : w.tgtRaw ["clean", "-f", patchPath rp c.hash] = Except.error e) :
    applyOne rp o w c =
      ([Ev.srcCmd (formatPatchArgs rp c.hash),
        Ev.info ("Applying commit: " ++ c.message ++ " (" ++ c.date ++ ")"),
        Ev.tgtCmd (amArgs o (patchPath rp c.hash)) [],
        Ev.tgtCmd ["clean", "-f", patchPath rp c.hash] []] ++ (catchBlock w c e).1,
       (catchBlock w c e).2) := by
  unfold applyOne
  rw [h1, h2, h3]

theorem applyOne_eq_success (rp : String) (o : ApplyOptions) (w : World) (c : GitCommit)
    (s1 s2 s3 : String) (h1 : w.srcRaw (formatPatchArgs rp c.hash) = Except.ok s1)
    (h2 : w.tgtRaw (amArgs o (patchPath rp c.hash)) = Except.ok s2)
    (h3 : w.tgtRaw ["clean", "-f", patchPath rp c.hash] = Except.ok s3) :
    applyOne rp o w c =
      ([Ev.srcCmd (formatPatchArgs rp c.hash),
        Ev.info ("Applying commit: " ++ c.message ++ " (" ++ c.date ++ ")"),
        Ev.tgtCmd (amArgs o (patchPath rp c.hash)) [],
        Ev.tgtCmd ["clean", "-f", patchPath rp c.hash] [],
        Ev.info (successLine o c)], none) := by
  unfold applyOne
  rw [h1, h2, h3]

theorem amArgs_getLast (o : ApplyOptions) (pp : String) :
    (amArgs o pp).getLast? = some pp := by
  unfold amArgs
  rcases o.newAuthor with _ | a <;> rcases o.newEmail with _ | e <;>
    simp [List.getLast?_concat]
  split <;> rfl

theorem amArgs_eq (o : ApplyOptions) (pp : String) :
    amArgs o pp =
      ["--committer-date-is-author-date", "--ignore-space-change",
       "--ignore-whitespace", "--3way"] ++
      (if truthy o.newAuthor && truthy o.newEmail then
        ["--author", o.newAuthor.getD "" ++ " <" ++ o.newEmail.getD "" ++ ">"]
      else []) ++ [pp] := by
  rcases ha : o.newAuthor with _ | a <;> rcases he : o.newEmail with _ | e <;>
    simp [amArgs, truthy, ha, he]

/-- C3: per processed commit, the first invocation of the iteration is the
single-commit (`-1`) patch generation on that commit's hash, requesting full
index data (`--full-index`), binary-safe encoding (`--binary`) and date
ordering (`--date-order`), with the source repository's directory as output
location (`-o repoPath`); the subsequent `am` invocation consumes the path
`<repoPath>/temp_<hash>.patch` (the file-system effect of the generation
itself belongs to the external tool, which the program only invokes). -/
theorem apply_patch_generation (rp : String) (o : ApplyOptions) (w : World) (c : GitCommit) :
    (applyOne rp o w c).1.head? = some (Ev.srcCmd
      ["format-patch", "--stdout", "-1", "--full-index", "--binary", "--date-order",
       c.hash, "-o", rp]) ∧
    (amArgs o (patchPath rp c.hash)).getLast? =
      some (rp ++ "/temp_" ++ c.hash ++ ".patch") := by
  refine ⟨?_, amArgs_getLast o (patchPath rp c.hash)⟩
  cases h1 : w.srcRaw (formatPatchArgs rp c.hash) with
  | error e => rw [applyOne_eq_fpFail rp o w c e h1]; rfl
  | ok s1 =>
    cases h2 : w.tgtRaw (amArgs o (patchPath rp c.hash)) with
    | error e => rw [applyOne_eq_amFail rp o w c s1 e h1 h2]; rfl
    | ok s2 =>
      cases h3 : w.tgtRaw ["clean", "-f", patchPath rp c.hash] with
      | error e => rw [applyOne_eq_cleanFail rp o w c s1 s2 e h1 h2 h3]; rfl
      | ok s3 => rw [applyOne_eq_success rp o w c s1 s2 s3 h1 h2 h3]; rfl

/-- C6: whenever the iteration reaches the patch application (the patch
generation call returned), the invocation issued against the target carries
exactly the four fixed flags `--committer-date-is-author-date`,
`--ignore-space-change`, `--ignore-whitespace`, `--3way`, followed by the
explicit `--author "<name> <email>"` override exactly when both a new
author name and a new author email were supplied, and finally the patch
path. -/
theorem am_invocation_flags (rp : String) (o : ApplyOptions) (w : World) (c : GitCommit)
    (h : ∃ s, w.srcRaw (formatPatchArgs rp c.hash) = Except.ok s) :
    Ev.tgtCmd (amArgs o (patchPath rp c.hash)) [] ∈ (applyOne rp o w c).1 ∧
    amArgs o (patchPath rp c.hash) =
      ["--committer-date-is-author-date", "--ignore-space-change",
       "--ignore-whitespace", "--3way"] ++
      (if truthy o.newAuthor && truthy o.newEmail then
        ["--author", o.newAuthor.getD "" ++ " <" ++ o.newEmail.getD "" ++ ">"]
      else []) ++ [patchPath rp c.hash] := by
  refine ⟨?_, amArgs_eq o (patchPath rp c.hash)⟩
  obtain ⟨s1, h1⟩ := h
  cases h2 : w.tgtRaw (amArgs o (patchPath rp c.hash)) with
  | error e => rw [applyOne_eq_amFail rp o w c s1 e h1 h2]; simp
  | ok s2 =>
    cases h3 : w.tgtRaw ["clean", "-f", patchPath rp c.hash] with
    | error e => rw [applyOne_eq_cleanFail rp o w c s1 s2 e h1 h2 h3]; simp
    | ok s3 => rw [applyOne_eq_success rp o w c s1 s2 s3 h1 h2 h3]; simp

/-- Witness for C6 with author override supplied. -/
theorem am_invocation_flags_witness :
    Ev.tgtCmd (amArgs ⟨some "Alice", some "alice@x", none, none⟩ (patchPath "r" "h1")) []
      ∈ (applyOne "r" ⟨some "Alice", some "alice@x", none, none⟩ wTwoCommits
          ⟨"h1", "a1", "d1", "m1", "diff-h1"⟩).1 ∧
    amArgs ⟨some "Alice", some "alice@x", none, none⟩ (patchPath "r" "h1") =
      ["--committer-date-is-author-date", "--ignore-space-change",
       "--ignore-whitespace", "--3way"] ++
      (if truthy (some "Alice") && truthy (some "alice@x") then
        ["--author", (some "Alice").getD "" ++ " <" ++ (some "alice@x").getD "" ++ ">"]
      else []) ++ [patchPath "r" "h1"] :=
  am_invocation_flags "r" ⟨some "Alice", some "alice@x", none, none⟩ wTwoCommits
    ⟨"h1", "a1", "d1", "m1", "diff-h1"⟩ ⟨"", rfl⟩

/-- C8: when all steps of an iteration succeed, the `clean` invocation that
removes the generated patch file is issued strictly before the success line
is logged: the iteration's trace is exactly patch generation, progress log,
patch application, patch-file removal, success log. -/
theorem cleanup_before_success_log (rp : String) (o : ApplyOptions) (w : World)
    (c : GitCommit)
    (h1 : ∃ s, w.srcRaw (formatPatchArgs rp c.hash) = Except.ok s)
    (h2 : ∃ s, w.tgtRaw (amArgs o (patchPath rp c.hash)) = Except.ok s)
    (h3 : ∃ s, w.tgtRaw ["clean", "-f", patchPath rp c.hash] = Except.ok s) :
    applyOne rp o w c =
      ([Ev.srcCmd (formatPatchArgs rp c.hash),
        Ev.info ("Applying commit: " ++ c.message ++ " (" ++ c.date ++ ")"),
        Ev.tgtCmd (amArgs o (patchPath rp c.hash)) [],
        Ev.tgtCmd ["clean", "-f", patchPath rp c.hash] [],
        Ev.info (successLine o c)], none) := by
  obtain ⟨s1, h1⟩ := h1
  obtain ⟨s2, h2⟩ := h2
  obtain ⟨s3, h3⟩ := h3
  exact applyOne_eq_success rp o w c s1 s2 s3 h1 h2 h3

/-- Witness for C8 at an all-successful world. -/
theorem cleanup_before_success_log_witness :
    applyOne "r" {} wTwoCommits ⟨"h1", "a1", "d1", "m1", "diff-h1"⟩ =
      ([Ev.srcCmd (formatPatchArgs "r" "h1"),
        Ev.info ("Applying commit: " ++ "m1" ++ " (" ++ "d1" ++ ")"),
        Ev.tgtCmd (amArgs {} (patchPath "r" "h1")) [],
        Ev.tgtCmd ["clean", "-f", patchPath "r" "h1"] [],
        Ev.info (successLine {} ⟨"h1", "a1", "d1", "m1", "diff-h1"⟩)], none) :=
  cleanup_before_success_log "r" {} wTwoCommits ⟨"h1", "a1", "d1", "m1", "diff-h1"⟩
    ⟨"", rfl⟩ ⟨"", rfl⟩ ⟨"", rfl⟩

/-- C10: the success-line labels are decided on the name fields alone.
With a new author name but no truthy new author email (and likewise a new
committer name but no truthy committer email), the log still announces the
new identities, yet no `--author` override is added to the apply invocation
and the committer environment map is empty — the logged identity differs
from the identity actually applied. -/
theorem success_label_from_names_only (rp : String) (o : ApplyOptions) (c : GitCommit)
    (h1 : truthy o.newAuthor = true) (h2 : truthy o.newEmail = false)
    (h3 : truthy o.newCommitter = true) (h4 : truthy o.newCommitterEmail = false) :
    authorInfo o c = "new author: " ++ o.newAuthor.getD "" ∧
    committerInfo o = "new committer: " ++ o.newCommitter.getD "" ∧
    amArgs o (patchPath rp c.hash) =
      ["--committer-date-is-author-date", "--ignore-space-change",
       "--ignore-whitespace", "--3way", patchPath rp c.hash] ∧
    computeEnv o = [] ∧
    successLine o c =
      "✓ Successfully applied with " ++ ("new author: " ++ o.newAuthor.getD "") ++ ", " ++
      ("new committer: " ++ o.newCommitter.getD "") ++
      " and original date: " ++ c.date ++ "\n" := by
  have hai : authorInfo o c = "new author: " ++ o.newAuthor.getD "" := by
    unfold authorInfo
    rw [h1]
    simp
  have hci : committerInfo o = "new committer: " ++ o.newCommitter.getD "" := by
    unfold committerInfo
    rw [h3]
    simp
  refine ⟨hai, hci, ?_, ?_, ?_⟩
  · rw [amArgs_eq, h1, h2]
    simp
  · unfold computeEnv
    rcases hn : o.newCommitter with _ | n <;> rcases he : o.newCommitterEmail with _ | em
    · rfl
    · rfl
    · rfl
    · rw [he] at h4
      have hem : em = "" := by simpa [truthy] using h4
      subst hem
      simp
  · unfold successLine
    rw [hai, hci]

/-- Witness for C10: author and committer names supplied without emails. -/
theorem success_label_from_names_only_witness :
    authorInfo ⟨some "Alice", none, some "Carol", none⟩ ⟨"h1", "a1", "d1", "m1", "x"⟩ =
      "new author: " ++ (some "Alice").getD "" ∧
    committerInfo ⟨some "Alice", none, some "Carol", none⟩ =
      "new committer: " ++ (some "Carol").getD "" ∧
    amArgs ⟨some "Alice", none, some "Carol", none⟩ (patchPath "r" "h1") =
      ["--committer-date-is-author-date", "--ignore-space-change",
       "--ignore-whitespace", "--3way", patchPath "r" "h1"] ∧
    computeEnv ⟨some "Alice", none, some "Carol", none⟩ = [] ∧
    successLine ⟨some "Alice", none, some "Carol", none⟩ ⟨"h1", "a1", "d1", "m1", "x"⟩ =
      "✓ Successfully applied with " ++ ("new author: " ++ (some "Alice").getD "") ++ ", " ++
      ("new committer: " ++ (some "Carol").getD "") ++
      " and original date: " ++ "d1" ++ "\n" :=
  success_label_from_names_only "r" ⟨some "Alice", none, some "Carol", none⟩
    ⟨"h1", "a1", "d1", "m1", "x"⟩ rfl rfl rfl rfl

theorem applyOne_tgt_env_empty (rp : String) (o : ApplyOptions) (w : World)
    (c : GitCommit) :
    ∀ args env, Ev.tgtCmd args env ∈ (applyOne rp o w c).1 → env = [] := by
  intro args env hmem
  cases h1 : w.srcRaw (formatPatchArgs rp c.hash) with
  | error e =>
    rw [applyOne_eq_fpFail rp o w c e h1, catchBlock_trace] at hmem
    simp at hmem
    exact hmem.2
  | ok s1 =>
    cases h2 : w.tgtRaw (amArgs o (patchPath rp c.hash)) with
    | error e =>
      rw [applyOne_eq_amFail rp o w c s1 e h1 h2, catchBlock_trace] at hmem
      simp at hmem
      rcases hmem with ⟨_, h⟩ | ⟨_, h⟩ <;> exact h
    | ok s2 =>
      cases h3 : w.tgtRaw ["clean", "-f", patchPath rp c.hash] with
      | error e =>
        rw [applyOne_eq_cleanFail rp o w c s1 s2 e h1 h2 h3, catchBlock_trace] at hmem
        simp at hmem
        rcases hmem with ⟨_, h⟩ | ⟨_, h⟩ | ⟨_, h⟩ <;> exact h
      | ok s3 =>
        rw [applyOne_eq_success rp o w c s1 s2 s3 h1 h2 h3] at hmem
        simp at hmem
        rcases hmem with ⟨_, h⟩ | ⟨_, h⟩ <;> exact h

theorem applyLoop_tgt_env_empty (rp : String) (o : ApplyOptions) (w : World)
    (cs : List GitCommit) :
    ∀ args env, Ev.tgtCmd args env ∈ (applyLoop rp o w cs).1 → env = [] := by
  induction cs with
  | nil => intro args env hmem; simp [applyLoop] at hmem
  | cons c rest ih =>
    intro args env hmem
    unfold applyLoop at hmem
    cases hf : (applyOne rp o w c).2 with
    | some e =>
      rw [hf] at hmem
      exact applyOne_tgt_env_empty rp o w c args env hmem
    | none =>
      rw [hf] at hmem
      simp only [List.mem_append] at hmem
      rcases hmem with hmem | hmem
      · exact applyOne_tgt_env_empty rp o w c args env hmem
      · exact ih args env hmem

theorem getCommits_no_tgtCmd (rp : String) (w : World) :
    ∀ args env, Ev.tgtCmd args env ∉ (getCommits rp w).2 := by
  intro args env hmem
  rcases getCommits_trace_kinds rp w _ hmem with ⟨hh, hev⟩ | ⟨s, hev⟩ | hev <;>
    exact Ev.noConfusion hev

theorem getCommits_no_srcCmd (rp : String) (w : World) :
    ∀ args, Ev.srcCmd args ∉ (getCommits rp w).2 := by
  intro args hmem
  rcases getCommits_trace_kinds rp w _ hmem with ⟨hh, hev⟩ | ⟨s, hev⟩ | hev <;>
    exact Ev.noConfusion hev

/-- C4: when both a new committer name and email are supplied, the
environment-variable override map `{GIT_COMMITTER_NAME, GIT_COMMITTER_EMAIL}`
is computed, but every invocation issued against the target repository over
the whole of `applyToRepo` carries an empty environment map — the committer
override is never threaded into the apply call. -/
theorem committer_env_computed_not_passed (rp tgt : String) (o : ApplyOptions)
    (w : World)
    (h1 : truthy o.newCommitter = true) (h2 : truthy o.newCommitterEmail = true) :
    computeEnv o = [("GIT_COMMITTER_NAME", o.newCommitter.getD ""),
                    ("GIT_COMMITTER_EMAIL", o.newCommitterEmail.getD "")] ∧
    ∀ args env, Ev.tgtCmd args env ∈ (applyToRepo rp tgt o w).1 → env = [] := by
  constructor
  · unfold computeEnv
    rcases hn : o.newCommitter with _ | n <;> rcases he : o.newCommitterEmail with _ | em
    · rw [hn] at h1; simp [truthy] at h1
    · rw [hn] at h1; simp [truthy] at h1
    · rw [he] at h2; simp [truthy] at h2
    · rw [hn] at h1
      rw [he] at h2
      have hn' : n ≠ "" := by simpa [truthy] using h1
      have he' : em ≠ "" := by simpa [truthy] using h2
      simp [hn', he']
  · intro args env hmem
    unfold applyToRepo at hmem
    by_cases hlen : (getCommits rp w).1.length = 0
    · rw [if_pos hlen] at hmem
      simp only [List.mem_append, List.mem_singleton] at hmem
      rcases hmem with hmem | hmem
      · exact absurd hmem (getCommits_no_tgtCmd rp w args env)
      · exact Ev.noConfusion hmem
    · rw [if_neg hlen] at hmem
      cases ht : w.tgtIsRepo with
      | error e =>
        rw [ht] at hmem
        simp at hmem
        exact absurd hmem (getCommits_no_tgtCmd rp w args env)
      | ok b =>
        cases b with
        | false =>
          rw [ht] at hmem
          simp at hmem
          exact absurd hmem (getCommits_no_tgtCmd rp w args env)
        | true =>
          rw [ht] at hmem
          simp at hmem
          rcases hmem with hmem | hmem
          · exact absurd hmem (getCommits_no_tgtCmd rp w args env)
          · exact applyLoop_tgt_env_empty rp o w _ args env hmem

/-- Witness for C4 with both committer fields supplied. -/
theorem committer_env_computed_not_passed_witness :
    computeEnv ⟨none, none, some "Carol", some "carol@x"⟩ =
      [("GIT_COMMITTER_NAME", (some "Carol").getD ""),
       ("GIT_COMMITTER_EMAIL", (some "carol@x").getD "")] ∧
    ∀ args env, Ev.tgtCmd args env ∈
        (applyToRepo "r" "t" ⟨none, none, some "Carol", some "carol@x"⟩ wTwoCommits).1 →
      env = [] :=
  committer_env_computed_not_passed "r" "t" ⟨none, none, some "Carol", some "carol@x"⟩
    wTwoCommits rfl rfl

/-- C7: if the fetched commit list is empty, or the target path is not a
valid repository, `applyToRepo` logs the corresponding message and returns
without rejecting; in both cases no patch-generation command is issued
against the source and no command at all is issued against the target
repository's history. -/
theorem applyToRepo_short_circuit (rp tgt : String) (o : ApplyOptions) (w : World)
    (h : (getCommits rp w).1 = [] ∨ w.tgtIsRepo = Except.ok false) :
    (∀ args env, Ev.tgtCmd args env ∉ (applyToRepo rp tgt o w).1) ∧
    (∀ args, Ev.srcCmd args ∉ (applyToRepo rp tgt o w).1) ∧
    (Ev.info "No commits to apply." ∈ (applyToRepo rp tgt o w).1 ∨
     Ev.info ("Target is not a git repository: " ++ tgt) ∈ (applyToRepo rp tgt o w).1) ∧
    (applyToRepo rp tgt o w).2 = none := by
  by_cases hlen : (getCommits rp w).1.length = 0
  · have happ : applyToRepo rp tgt o w =
        ((getCommits rp w).2 ++ [Ev.info "No commits to apply."], none) := by
      unfold applyToRepo
      rw [if_pos hlen]
    rw [happ]
    refine ⟨?_, ?_, Or.inl ?_, rfl⟩
    · intro args env hmem
      simp at hmem
      exact absurd hmem (getCommits_no_tgtCmd rp w args env)
    · intro args hmem
      simp at hmem
      exact absurd hmem (getCommits_no_srcCmd rp w args)
    · simp
  · have ht : w.tgtIsRepo = Except.ok false := by
      rcases h with h | h
      · exact absurd (by rw [h]; rfl) hlen
      · exact h
    have happ : applyToRepo rp tgt o w =
        ((getCommits rp w).2 ++
         [Ev.tgtCheck, Ev.info ("Target is not a git repository: " ++ tgt)], none) := by
      unfold applyToRepo
      rw [if_neg hlen, ht]
    rw [happ]
    refine ⟨?_, ?_, Or.inr ?_, rfl⟩
    · intro args env hmem
      simp at hmem
      exact absurd hmem (getCommits_no_tgtCmd rp w args env)
    · intro args hmem
      simp at hmem
      exact absurd hmem (getCommits_no_srcCmd rp w args)
    · simp

/-- Witness for C7 against a non-repository target. -/
theorem applyToRepo_short_circuit_witness :
    (∀ args env, Ev.tgtCmd args env ∉ (applyToRepo "p" "t" {} wNotRepo).1) ∧
    (∀ args, Ev.srcCmd args ∉ (applyToRepo "p" "t" {} wNotRepo).1) ∧
    (Ev.info "No commits to apply." ∈ (applyToRepo "p" "t" {} wNotRepo).1 ∨
     Ev.info ("Target is not a git repository: " ++ "t") ∈
       (applyToRepo "p" "t" {} wNotRepo).1) ∧
    (applyToRepo "p" "t" {} wNotRepo).2 = none :=
  applyToRepo_short_circuit "p" "t" {} wNotRepo (Or.inl rfl)

/-- A run in which the patch application fails for the first commit and the
subsequent `am --abort` also fails. -/
def wAbortFails : World where
  srcIsRepo := Except.ok true
  srcLog := Except.ok [⟨"aaa", "al", "2020", "m1"⟩, ⟨"bbb", "bo", "2021", "m2"⟩]
  srcShow := fun _ => Except.ok "d"
  srcRaw := fun _ => Except.ok ""
  tgtIsRepo := Except.ok true
  tgtRaw := fun args =>
    if args = ["am", "--abort"] then Except.error "abort-failed"
    else if args.head? = some "clean" then Except.ok ""
    else Except.error "am-failed"

/-- A run in which the patch application fails for the first commit but the
subsequent `am --abort` succeeds. -/
def wAmFails : World where
  srcIsRepo := Except.ok true
  srcLog := Except.ok [⟨"aaa", "al", "2020", "m1"⟩, ⟨"bbb", "bo", "2021", "m2"⟩]
  srcShow := fun _ => Except.ok "d"
  srcRaw := fun _ => Except.ok ""
  tgtIsRepo := Except.ok true
  tgtRaw := fun args =>
    if args = ["am", "--abort"] then Except.ok ""
    else if args.head? = some "clean" then Except.ok ""
    else Except.error "am-failed"

/-- Counterexample to C2 as stated: in a two-commit run where the first
commit's patch application fails, the failure is logged and `am --abort` is
issued, but the abort invocation itself fails; the run then rejects (fatal)
and the second commit is never processed — its patch-generation command
never appears in the trace. -/
theorem apply_failure_fatal_counterexample :
    Ev.error ("Failed to apply commit " ++ "aaa" ++ " from " ++ "2020" ++ ": " ++ "am-failed")
      ∈ (applyToRepo "src" "tgt" {} wAbortFails).1 ∧
    Ev.tgtCmd ["am", "--abort"] [] ∈ (applyToRepo "src" "tgt" {} wAbortFails).1 ∧
    (applyToRepo "src" "tgt" {} wAbortFails).2 = some "abort-failed" ∧
    Ev.srcCmd (formatPatchArgs "src" "bbb") ∉ (applyToRepo "src" "tgt" {} wAbortFails).1 := by
  decide

/-- C2 (amended): whenever one of the steps of an iteration fails for a
commit, the error is logged together with the commit hash and its original
date, an `am --abort` command is issued against the target and — provided
the abort invocation itself succeeds — the iteration completes without a
fatal rejection and processing proceeds to the next commit, the traces of
the remaining commits following unchanged (no rollback of the already
processed ones). -/
theorem apply_failure_isolated (rp : String) (o : ApplyOptions) (w : World)
    (c : GitCommit) (rest : List GitCommit) (e : String)
    (hf : failMsg rp o w c = some e)
    (ha : ∃ s, w.tgtRaw ["am", "--abort"] = Except.ok s) :
    Ev.error ("Failed to apply commit " ++ c.hash ++ " from " ++ c.date ++ ": " ++ e)
      ∈ (applyOne rp o w c).1 ∧
    Ev.tgtCmd ["am", "--abort"] [] ∈ (applyOne rp o w c).1 ∧
    (applyOne rp o w c).2 = none ∧
    applyLoop rp o w (c :: rest) =
      ((applyOne rp o w c).1 ++ (applyLoop rp o w rest).1,
       (applyLoop rp o w rest).2) := by
  have main : Ev.error ("Failed to apply commit " ++ c.hash ++ " from " ++ c.date ++ ": " ++ e)
      ∈ (applyOne rp o w c).1 ∧
      Ev.tgtCmd ["am", "--abort"] [] ∈ (applyOne rp o w c).1 ∧
      (applyOne rp o w c).2 = none := by
    unfold failMsg at hf
    cases h1 : w.srcRaw (formatPatchArgs rp c.hash) with
    | error e1 =>
      rw [h1] at hf
      have he1 : e1 = e := by simpa using hf
      subst he1
      rw [applyOne_eq_fpFail rp o w c e1 h1, catchBlock_trace]
      refine ⟨by simp, by simp, catchBlock_recovers w c e1 ha⟩
    | ok s1 =>
      rw [h1] at hf
      cases h2 : w.tgtRaw (amArgs o (patchPath rp c.hash)) with
      | error e2 =>
        rw [h2] at hf
        have he2 : e2 = e := by simpa using hf
        subst he2
        rw [applyOne_eq_amFail rp o w c s1 e2 h1 h2, catchBlock_trace]
        refine ⟨by simp, by simp, catchBlock_recovers w c e2 ha⟩
      | ok s2 =>
        rw [h2] at hf
        cases h3 : w.tgtRaw ["clean", "-f", patchPath rp c.hash] with
        | error e3 =>
          rw [h3] at hf
          have he3 : e3 = e := by simpa using hf
          subst he3
          rw [applyOne_eq_cleanFail rp o w c s1 s2 e3 h1 h2 h3, catchBlock_trace]
          refine ⟨by simp, by simp, catchBlock_recovers w c e3 ha⟩
        | ok s3 =>
          rw [h3] at hf
          simp at hf
  refine ⟨main.1, main.2.1, main.2.2, ?_⟩
  conv_lhs => rw [applyLoop]
  rw [main.2.2]

/-- Witness for C2 (amended): the first commit's application fails, the
abort succeeds, and the second commit is still processed. -/
theorem apply_failure_isolated_witness :
    Ev.error ("Failed to apply commit " ++ "aaa" ++ " from " ++ "2020" ++ ": " ++ "am-failed")
      ∈ (applyOne "src" {} wAmFails ⟨"aaa", "al", "2020", "m1", "d"⟩).1 ∧
    Ev.tgtCmd ["am", "--abort"] [] ∈
      (applyOne "src" {} wAmFails ⟨"aaa", "al", "2020", "m1", "d"⟩).1 ∧
    (applyOne "src" {} wAmFails ⟨"aaa", "al", "2020", "m1", "d"⟩).2 = none ∧
    applyLoop "src" {} wAmFails
        [⟨"aaa", "al", "2020", "m1", "d"⟩, ⟨"bbb", "bo", "2021", "m2", "d"⟩] =
      ((applyOne "src" {} wAmFails ⟨"aaa", "al", "2020", "m1", "d"⟩).1 ++
        (applyLoop "src" {} wAmFails [⟨"bbb", "bo", "2021", "m2", "d"⟩]).1,
       (applyLoop "src" {} wAmFails [⟨"bbb", "bo", "2021", "m2", "d"⟩]).2) :=
  apply_failure_isolated "src" {} wAmFails ⟨"aaa", "al", "2020", "m1", "d"⟩
    [⟨"bbb", "bo", "2021", "m2", "d"⟩] "am-failed" (by decide) ⟨"", rfl⟩

end GitLogger
